import Mathlib

/-!
Verification of the MT5 gateway server (`src/python/mt5_connector.py`).

The development shallowly embeds the session lifecycle manager, the
price-streaming engine and the trade-execution logic of the Python source.
The external MetaTrader5 terminal is an opaque dependency; every terminal
call made by a modelled operation is represented by an oracle record whose
fields hold the value that call returns during the run (or the fact that it
raised).  Python floats are modelled as rationals and Python `round`
(banker's rounding, round-half-to-even) as `pyRound`.
-/

/-- An order-execution (filling) mode, `ORDER_FILLING_FOK / _IOC / _RETURN`
in the source. -/
inductive FillMode
  | FOK
  | IOC
  | RETURN
deriving DecidableEq

/-- The `mode_name` string attached to each filling mode in
`place_trade`'s `filling_modes` table (lines 329-333). -/
def placeModeName : FillMode → String
  | .FOK => "FOK"
  | .IOC => "IOC"
  | .RETURN => "RETURN"

/-- Order-send return codes (`mt5.TRADE_RETCODE_*`).  The source only ever
compares these constants for identity, so they are modelled as an
enumeration; `other n` stands for any retcode the source does not name. -/
inductive Retcode
  | done
  | requote
  | reject
  | invalid
  | invalidFill
  | invalidVolume
  | noMoney
  | tradeDisabled
  | marketClosed
  | invalidPrice
  | invalidStops
  | invalidExpiration
  | connection
  | onlyReal
  | limitOrders
  | limitVolume
  | invalidOrder
  | positionClosed
  | invalidCloseVolume
  | closeOrderExist
  | limitPositions
  | rejectCancel
  | longOnly
  | shortOnly
  | closeOnly
  | fifoClose
  | other (code : Nat)
deriving DecidableEq

/-- Result record of `mt5.order_send` (fields used by the source). -/
structure OrderResult where
  retcode : Retcode
  order : Nat
  deal : Nat
  volume : ℚ
  price : ℚ
deriving DecidableEq

/-- Instrument data returned by `mt5.symbol_info` (fields read by the
source).  The three `fill_*` flags stand for the bitmask tests
`info.filling_mode & mt5.ORDER_FILLING_FOK / _IOC / _RETURN` being
non-zero; the source only consults the bitmask through these three
tests. -/
structure SymbolInfo where
  trade_mode : Nat
  digits : Nat
  volume_min : ℚ
  volume_max : ℚ
  volume_step : ℚ
  fill_fok : Bool
  fill_ioc : Bool
  fill_return : Bool
deriving DecidableEq

/-- The bitmask test for one filling mode on an instrument. -/
def supp (i : SymbolInfo) : FillMode → Bool
  | .FOK => i.fill_fok
  | .IOC => i.fill_ioc
  | .RETURN => i.fill_return

/-- Account data returned by `mt5.account_info` (fields read by the
source). -/
structure AccountInfo where
  login : Nat
  trade_allowed : Bool
  trade_expert : Bool
  balance : ℚ
deriving DecidableEq

/-- A live tick returned by `mt5.symbol_info_tick`. -/
structure Tick where
  bid : ℚ
  ask : ℚ
deriving DecidableEq

/-- Outcome of one call into the terminal: the returned value, or the call
raised an exception (caught by the enclosing `try` in the source). -/
inductive TCall (α : Type)
  | ret (a : α)
  | raise
deriving DecidableEq

/-- Python's built-in `round` on rationals: round half to even. -/
def pyRound (q : ℚ) : ℤ :=
  let f := ⌊q⌋
  let r := q - (f : ℚ)
  if r < 1 / 2 then f
  else if 1 / 2 < r then f + 1
  else if f % 2 = 0 then f else f + 1

/-- Python `round(q, d)`: round to `d` decimal digits. -/
def roundToDigits (q : ℚ) (d : Nat) : ℚ :=
  (pyRound (q * 10 ^ d) : ℚ) / 10 ^ d

/-- Volume normalization used identically at `place_trade` line 322 and
`close_trade` line 482:
`max(volume_min, min(volume_max, round(volume / volume_step) * volume_step))`. -/
def normalizeVolume (vmin vmax vstep v : ℚ) : ℚ :=
  max vmin (min vmax ((pyRound (v / vstep) : ℚ) * vstep))

/-- Volume defaulting in `close_trade` line 476: `volume = volume or
pos.volume`.  A missing volume and a (falsy) zero volume both fall back to
the position's full volume. -/
def closeVolumeDefault : Option ℚ → ℚ → ℚ
  | none, pv => pv
  | some v, pv => if v = 0 then pv else v

/-- The volume `close_trade` places into the order request: the defaulted
volume, normalized against the instrument (lines 476-482). -/
def closeRequestVolume (i : SymbolInfo) (posVolume : ℚ) (vol? : Option ℚ) : ℚ :=
  normalizeVolume i.volume_min i.volume_max i.volume_step
    (closeVolumeDefault vol? posVolume)

/-! ## Execution-mode candidate lists -/

/-- The `filling_modes` table of `place_trade` (lines 329-333), in source
order: IOC, FOK, RETURN. -/
def placeFillingModes : List FillMode := [.IOC, .FOK, .RETURN]

/-- `supported_modes` as first built in `place_trade` (lines 336-339):
the hard-coded IOC default followed by every mode whose bitmask test
passes, scanned in `placeFillingModes` order. -/
def placeSupportedModes (i : SymbolInfo) : List FillMode :=
  .IOC :: placeFillingModes.filter (fun m => supp i m)

/-- The `requested_mode` search of `place_trade` (lines 343-347): the first
table entry whose name equals the caller's `filling_mode` string and which
is either bitmask-supported or named "IOC". -/
def placeRequestedMode (i : SymbolInfo) (fillingMode : String) : Option FillMode :=
  placeFillingModes.find?
    (fun m => placeModeName m == fillingMode && (supp i m || placeModeName m == "IOC"))

/-- Duplicate removal of `place_trade` line 356: keep the first occurrence
of each mode name, preserving order (`seen` is the set of names already
kept). -/
def dedupByName (seen : List String) : List FillMode → List FillMode
  | [] => []
  | m :: ms =>
    if placeModeName m ∈ seen then dedupByName seen ms
    else m :: dedupByName (placeModeName m :: seen) ms

/-- The ordered candidate list `place_trade` actually iterates over
(lines 336-356): the requested mode, when valid, prepended to
`placeSupportedModes`, then deduplicated by name. -/
def placeCandidateModes (i : SymbolInfo) (fillingMode : String) : List FillMode :=
  dedupByName []
    (match placeRequestedMode i fillingMode with
     | some r => r :: placeSupportedModes i
     | none => placeSupportedModes i)

/-- The `filling_modes` table of `close_trade` (lines 494-498), in source
order: FOK, IOC, RETURN. -/
def closeFillingModes : List FillMode := [.FOK, .IOC, .RETURN]

/-- The candidate list `close_trade` iterates over (lines 500-508): the
bitmask-supported modes in table order, or the IOC default when none
pass. -/
def closeCandidateModes (i : SymbolInfo) : List FillMode :=
  let supported := closeFillingModes.filter (fun m => supp i m)
  if supported = [] then [.IOC] else supported

/-! ## The order-submission retry loop -/

/-- Retcodes that abort `place_trade`'s retry loop (lines 440-447). -/
def placeBreakList : List Retcode :=
  [.noMoney, .tradeDisabled, .marketClosed, .invalidVolume, .connection, .onlyReal]

/-- Retcodes that abort `close_trade`'s retry loop (lines 559-563). -/
def closeBreakList : List Retcode :=
  [.tradeDisabled, .marketClosed, .invalidVolume]

/-- Outcome of the retry loop shared by `place_trade` (lines 359-456) and
`close_trade` (lines 510-569): success with the first mode whose
`order_send` reports `TRADE_RETCODE_DONE`, or failure carrying the last
classified error (retcode and mode tried), `none` when no candidate was
attempted at all. -/
inductive TradeOutcome
  | success (m : FillMode) (r : OrderResult)
  | failure (lastErr : Option (Retcode × FillMode))
deriving DecidableEq

/-- The retry loop: try each candidate in order; stop at the first `done`
retcode, or break out early when the retcode is in the break list `brk`;
otherwise record the error and continue.  `send m` is the `order_send`
result for the request built with filling mode `m` (all other request
fields are fixed for the duration of the loop). -/
def runModes (brk : List Retcode) (send : FillMode → OrderResult) :
    List FillMode → Option (Retcode × FillMode) → TradeOutcome
  | [], le => .failure le
  | m :: ms, le =>
    let r := send m
    if r.retcode = .done then .success m r
    else if r.retcode ∈ brk then .failure (some (r.retcode, m))
    else runModes brk send ms (some (r.retcode, m))

/-- The list of modes the retry loop actually attempts (submits an order
for), in order. -/
def attemptList (brk : List Retcode) (send : FillMode → OrderResult) :
    List FillMode → List FillMode
  | [] => []
  | m :: ms =>
    m :: (if (send m).retcode = .done ∨ (send m).retcode ∈ brk then []
          else attemptList brk send ms)

/-! ## `MT5Connector.connect` (lines 43-78) -/

/-- The session flags `connect` manipulates: `self.connected` and the
`self.shutdown_event` flag. -/
structure SessionFlags where
  connected : Bool
  shutdownFlag : Bool
deriving DecidableEq

/-- Terminal calls issued by one run of `connect`: the `mt5.initialize`
result (the `terminal_path` and no-path branches make the same call), the
`mt5.login` result, the error code `mt5.last_error()[0]` reported after a
failed login, and the `mt5.account_info()` result. -/
structure ConnectOracle where
  initOk : TCall Bool
  loginOk : TCall Bool
  lastErrorCode : Int
  accountInfo : TCall (Option AccountInfo)

/-- Result of `connect`: a classified error carrying the error code, or
success carrying the returned account metadata (login id, trading-allowed
flag, balance).  Error messages are not modelled, only the codes. -/
inductive ConnectResult
  | err (code : Int)
  | ok (account : Option Nat) (tradeAllowed : Bool) (balance : ℚ)
deriving DecidableEq

/-- `MT5Connector.connect` (lines 43-78).  An initialization failure
returns code 1000; a login failure returns the code from `last_error`; a
raised exception is caught and returns code 1002.  Note the source sets
`self.connected = True` and clears the shutdown event *before* checking
`account_info.trade_expert`, so the AutoTrading-disabled failure (code
1001) leaves the session flags already flipped. -/
def connectSession (o : ConnectOracle) (s : SessionFlags) : SessionFlags × ConnectResult :=
  match o.initOk with
  | .raise => (s, .err 1002)
  | .ret false => (s, .err 1000)
  | .ret true =>
    match o.loginOk with
    | .raise => (s, .err 1002)
    | .ret false => (s, .err o.lastErrorCode)
    | .ret true =>
      let s' : SessionFlags := { connected := true, shutdownFlag := false }
      match o.accountInfo with
      | .raise => (s', .err 1002)
      | .ret (some ai) =>
        if !ai.trade_expert then (s', .err 1001)
        else (s', .ok (some ai.login) ai.trade_allowed ai.balance)
      | .ret none => (s', .ok none false 0)

/-! ## `MT5Connector.place_trade` (lines 269-460) -/

/-- Terminal calls issued by one run of `place_trade`:
`mt5.symbol_select`, `mt5.symbol_info`, `mt5.account_info`,
`mt5.symbol_info_tick`, and the `mt5.order_send` result for the request
built with each filling mode (the only request field that varies across
the retry loop). -/
structure PlaceOracle where
  selectOk : Bool
  info? : Option SymbolInfo
  account? : Option AccountInfo
  tick? : Option Tick
  send : ℚ → FillMode → OrderResult

/-- Result of `place_trade`: a validation error (code), the last
classified `order_send` error (retcode and mode tried), the generic
code-10030 failure when the loop set no error, or success. -/
inductive PlaceResult
  | verr (code : Nat)
  | sendErr (r : Retcode) (m : FillMode)
  | allFailed
  | ok (order deal : Nat) (volume price sl tp : ℚ) (m : FillMode)
deriving DecidableEq

/-- Stop-loss / take-profit computation of `place_trade` (lines 310-316):
`round(price ∓ distance, digits)` when the distance argument is truthy
(present and non-zero), else 0.  `sub = true` subtracts the distance. -/
def stopPrice (price : ℚ) (dist : Option ℚ) (digits : Nat) (sub : Bool) : ℚ :=
  match dist with
  | none => 0
  | some d => if d = 0 then 0 else roundToDigits (if sub then price - d else price + d) digits

/-- `MT5Connector.place_trade` (lines 269-460), for a `BUY` or `SELL`
`order_type` (already upper-cased; any other string yields code 10017). -/
def placeTrade (o : PlaceOracle) (connected : Bool) (volume : ℚ)
    (orderType : String) (slDistance tpDistance : Option ℚ)
    (fillingMode : String) : PlaceResult :=
  if !connected then .verr 1004
  else if !o.selectOk then .verr 1006
  else match o.info? with
  | none => .verr 1007
  | some info =>
    if info.trade_mode = 0 then .verr 1007
    else match o.account? with
    | none => .verr 1011
    | some acct =>
      if !acct.trade_allowed then .verr 10027
      else if acct.balance < volume * 100 then .verr 10019
      else match o.tick? with
      | none => .verr 1009
      | some tick =>
        let ot := orderType.toUpper
        if ot = "BUY" ∨ ot = "SELL" then
          let price := if ot = "BUY" then tick.ask else tick.bid
          let sl := stopPrice price slDistance info.digits (ot = "BUY")
          let tp := stopPrice price tpDistance info.digits (ot ≠ "BUY")
          let vol := normalizeVolume info.volume_min info.volume_max info.volume_step volume
          match runModes placeBreakList (o.send vol) (placeCandidateModes info fillingMode) none with
          | .success m r => .ok r.order r.deal r.volume r.price sl tp m
          | .failure (some (rc, m)) => .sendErr rc m
          | .failure none => .allFailed
        else .verr 10017

/-! ## `MT5Connector.close_trade` (lines 462-573) -/

/-- `mt5.POSITION_TYPE_BUY` / `mt5.POSITION_TYPE_SELL`. -/
inductive PosType
  | buy
  | sell
deriving DecidableEq

/-- A position record from `mt5.positions_get(ticket=...)` (fields read by
`close_trade`). -/
structure Position where
  symbol : String
  ptype : PosType
  volume : ℚ
  magic : Nat
  profit : ℚ
deriving DecidableEq

/-- Terminal calls issued by one run of `close_trade`.  `send v m` is the
`mt5.order_send` result for the close request carrying volume `v` and
filling mode `m` (the two request fields that depend on the modelled
inputs). -/
structure CloseOracle where
  position? : Option Position
  info? : Option SymbolInfo
  tick? : Option Tick
  send : ℚ → FillMode → OrderResult

/-- Result of `close_trade`, mirroring `PlaceResult`. -/
inductive CloseResult
  | verr (code : Nat)
  | sendErr (r : Retcode) (m : FillMode)
  | allFailed
  | ok (deal : Nat) (price volume profit : ℚ) (symbol : String) (m : FillMode)
deriving DecidableEq

/-- `MT5Connector.close_trade` (lines 462-573).  The requested volume
defaults through Python truthiness (`volume or pos.volume`) and is then
normalized against the instrument; it is never compared against the
position's own volume. -/
def closeTrade (o : CloseOracle) (connected : Bool)
    (vol? : Option ℚ) (sym? : Option String) : CloseResult :=
  if !connected then .verr 1004
  else match o.position? with
  | none => .verr 1013
  | some pos =>
    let symbol := sym?.getD pos.symbol
    let _closeType : PosType := match pos.ptype with | .buy => .sell | .sell => .buy
    let vol := closeVolumeDefault vol? pos.volume
    match o.info? with
    | none => .verr 1007
    | some info =>
      if info.trade_mode = 0 then .verr 1007
      else
        let volume := normalizeVolume info.volume_min info.volume_max info.volume_step vol
        match o.tick? with
        | none => .verr 1009
        | some tick =>
          let _price := match pos.ptype with | .buy => tick.bid | .sell => tick.ask
          match runModes closeBreakList (o.send volume) (closeCandidateModes info) none with
          | .success m r => .ok r.deal r.price r.volume pos.profit symbol m
          | .failure (some (rc, m)) => .sendErr rc m
          | .failure none => .allFailed

/-! ## Price streaming (lines 205-267) -/

/-- The per-connector streaming bookkeeping: `self.price_threads`
(modelled as the predicate "a worker entry exists for this symbol" — the
dict's stored future is irrelevant) and `self.active_subscriptions`
(symbol → subscriber list; a symbol absent from the dict is modelled as
the empty list, which is faithful because no source operation ever leaves
an empty list stored under a present key). -/
structure StreamState where
  threads : String → Bool
  subs : String → List String

/-- The connector's initial streaming state (`__init__`, lines 32-33):
both dicts empty. -/
def streamInit : StreamState :=
  { threads := fun _ => false, subs := fun _ => [] }

/-- `MT5Connector.start_price_stream` (lines 205-247): if a worker already
exists for the symbol, append the client to the subscriber list when not
yet present; otherwise record the singleton subscriber list and register a
new worker. -/
def startPriceStream (s : StreamState) (sym client : String) : StreamState :=
  if s.threads sym = true then
    if client ∈ s.subs sym then s
    else { s with subs := fun x => if x = sym then s.subs sym ++ [client] else s.subs x }
  else
    { threads := fun x => if x = sym then true else s.threads x,
      subs := fun x => if x = sym then [client] else s.subs x }

/-- `MT5Connector.stop_price_stream` (lines 249-267): a no-op when the
symbol has no subscription entry.  With a client id, remove that client
(first occurrence, only if present); when the list becomes empty delete
both the subscription entry and the worker entry.  With no client id,
delete both entries outright. -/
def stopPriceStream (s : StreamState) (sym : String) : Option String → StreamState
  | some c =>
    if s.subs sym = [] then s
    else if (s.subs sym).erase c = [] then
      { threads := fun x => if x = sym then false else s.threads x,
        subs := fun x => if x = sym then [] else s.subs x }
    else { s with subs := fun x => if x = sym then (s.subs sym).erase c else s.subs x }
  | none =>
    if s.subs sym = [] then s
    else
      { threads := fun x => if x = sym then false else s.threads x,
        subs := fun x => if x = sym then [] else s.subs x }

/-- The cleanup a poll worker runs on itself when its loop exits
(lines 240-243): delete its own entry from both maps. -/
def workerExit (s : StreamState) (sym : String) : StreamState :=
  { threads := fun x => if x = sym then false else s.threads x,
    subs := fun x => if x = sym then [] else s.subs x }

/-- The streaming effect of `MT5Connector.disconnect` (lines 87-91): stop
every stream, then clear both dicts; the net state has both maps empty. -/
def disconnectStreams (_s : StreamState) : StreamState :=
  { threads := fun _ => false, subs := fun _ => [] }

/-- The invariant of claim C8: a poll worker exists for a symbol iff that
symbol has at least one recorded subscriber. -/
def WorkerIffSubscribed (s : StreamState) : Prop :=
  ∀ sym, s.threads sym = true ↔ s.subs sym ≠ []

/-! ## The poll worker loop (`price_worker`, lines 214-243) -/

/-- One `get_price` poll as the worker observes it: a successful quote
(only the bid/ask signature matters to the worker's control flow), a
`(False, error)` return, or an exception caught by the worker's `try`. -/
inductive PollResult
  | success (bid ask : ℚ)
  | failure
  | exn
deriving DecidableEq

/-- Number of polls the worker consumes before its loop exits, processing
a given sequence of poll outcomes; the loop's continuation condition
(symbol still registered, connected, no shutdown) is taken to hold
throughout — the modelled exits are the `break` statements of the
circuit breaker (`error_count >= 5`, lines 230-232 and 236-238), plus
exhausting the sequence.  On a successful poll with a fresh (bid, ask)
signature the quote is published and the error counter reset
(lines 224-228); an unchanged signature publishes nothing and leaves the
counter untouched. -/
def workerConsumed (lastSig : Option (ℚ × ℚ)) (ec : Nat) : List PollResult → Nat
  | [] => 0
  | .success b a :: ps =>
    if some (b, a) ≠ lastSig then 1 + workerConsumed (some (b, a)) 0 ps
    else 1 + workerConsumed lastSig ec ps
  | .failure :: ps =>
    if 5 ≤ ec + 1 then 1 else 1 + workerConsumed lastSig (ec + 1) ps
  | .exn :: ps =>
    if 5 ≤ ec + 1 then 1 else 1 + workerConsumed lastSig (ec + 1) ps

/-- Number of quotes the worker publishes over a sequence of successful
polls, starting from a last-emitted signature (lines 223-228): publish
exactly when the (bid, ask) signature differs from the last emitted one,
then remember it.  `last_price` starts as `None`, which no signature
string equals. -/
def emitCount (lastSig : Option (ℚ × ℚ)) : List (ℚ × ℚ) → Nat
  | [] => 0
  | q :: qs =>
    if some q ≠ lastSig then 1 + emitCount (some q) qs
    else emitCount lastSig qs

/-- Helper for the specification-side count: number of positions where the
signature changes from its predecessor. -/
def sigChanges (a : ℚ × ℚ) : List (ℚ × ℚ) → Nat
  | [] => 0
  | b :: l => (if b ≠ a then 1 else 0) + sigChanges b l

/-- Modelled from the spec: the number of distinct consecutive (bid, ask)
pairs in a sequence — the first element plus every element that differs
from its predecessor. -/
def distinctConsecCount : List (ℚ × ℚ) → Nat
  | [] => 0
  | a :: l => 1 + sigChanges a l

/-! ## The connector registry (lines 625-648) -/

/-- The registry's view of one connector: the fields
`cleanup_inactive_connectors` reads (`connected`, `last_activity`, and the
key set of `active_subscriptions`). -/
structure RegConnector where
  connected : Bool
  lastActivity : ℚ
  subscribedSymbols : List String
deriving DecidableEq

/-- The eviction test of `cleanup_inactive_connectors` (line 646):
`not connector.connected or (current_time - connector.last_activity > 1800
and not connector.active_subscriptions)`. -/
def shouldEvict (now : ℚ) (c : RegConnector) : Bool :=
  !c.connected || (decide (1800 < now - c.lastActivity) && c.subscribedSymbols.isEmpty)

/-- `cleanup_inactive_connectors` (lines 641-648): every connector passing
the eviction test is disconnected and deleted from the registry; the rest
are kept unchanged. -/
def cleanupInactiveConnectors (now : ℚ) (reg : List (String × RegConnector)) :
    List (String × RegConnector) :=
  reg.filter (fun ac => !shouldEvict now ac.2)

/-! ## Helper lemmas -/

theorem placeModeName_inj {m m' : FillMode} (h : placeModeName m = placeModeName m') :
    m = m' := by
  cases m <;> cases m' <;> simp_all [placeModeName]

theorem mem_dedupByName {m : FillMode} :
    ∀ (seen : List String) (l : List FillMode),
      m ∈ dedupByName seen l ↔ (m ∈ l ∧ placeModeName m ∉ seen) := by
  intro seen l
  induction l generalizing seen with
  | nil => simp [dedupByName]
  | cons x xs ih =>
    by_cases hx : placeModeName x ∈ seen
    · rw [dedupByName, if_pos hx, ih]
      simp only [List.mem_cons]
      constructor
      · rintro ⟨h1, h2⟩
        exact ⟨Or.inr h1, h2⟩
      · rintro ⟨rfl | h1, h2⟩
        · exact absurd hx h2
        · exact ⟨h1, h2⟩
    · rw [dedupByName, if_neg hx]
      simp only [List.mem_cons, ih, not_or]
      constructor
      · rintro (rfl | ⟨h1, h2, h3⟩)
        · exact ⟨Or.inl rfl, hx⟩
        · exact ⟨Or.inr h1, h3⟩
      · rintro ⟨h1 | h1, h2⟩
        · exact Or.inl h1
        · by_cases hmx : m = x
          · exact Or.inl hmx
          · exact Or.inr ⟨h1, fun he => hmx (placeModeName_inj he), h2⟩

theorem nodup_dedupByName : ∀ (seen : List String) (l : List FillMode),
    (dedupByName seen l).Nodup := by
  intro seen l
  induction l generalizing seen with
  | nil => simp [dedupByName]
  | cons x xs ih =>
    by_cases hx : placeModeName x ∈ seen
    · rw [dedupByName, if_pos hx]
      exact ih seen
    · rw [dedupByName, if_neg hx]
      refine List.nodup_cons.mpr ⟨fun hmem => ?_, ih _⟩
      rcases (mem_dedupByName _ _).1 hmem with ⟨_, hns⟩
      exact hns (List.mem_cons_self _ _)

theorem placeRequestedMode_valid {i : SymbolInfo} {fm : String} {m : FillMode}
    (h : placeRequestedMode i fm = some m) :
    placeModeName m = fm ∧ (supp i m = true ∨ m = .IOC) := by
  have hp := List.find?_some h
  simp only [Bool.and_eq_true, Bool.or_eq_true, beq_iff_eq] at hp
  rcases hp with ⟨h1, h2⟩
  refine ⟨h1, ?_⟩
  rcases h2 with h2 | h2
  · exact .inl h2
  · right
    cases m <;> simp_all [placeModeName]

theorem runModes_break (brk : List Retcode) (send : FillMode → OrderResult)
    (hdone : Retcode.done ∉ brk) :
    ∀ (cands : List FillMode) (m : FillMode),
      m ∈ attemptList brk send cands → (send m).retcode ∈ brk →
      (∃ pre, attemptList brk send cands = pre ++ [m] ∧
        ∀ m' ∈ pre, (send m').retcode ∉ brk ∧ (send m').retcode ≠ .done) ∧
      ∀ le, runModes brk send cands le = .failure (some ((send m).retcode, m)) := by
  intro cands
  induction cands with
  | nil =>
    intro m h
    simp [attemptList] at h
  | cons c cs ih =>
    intro m hmem hbrk
    by_cases hstop : (send c).retcode = .done ∨ (send c).retcode ∈ brk
    · have hAtt : attemptList brk send (c :: cs) = [c] := by
        rw [attemptList, if_pos hstop]
      rw [hAtt] at hmem
      have hm : m = c := by simpa using hmem
      subst hm
      have hnd : (send m).retcode ≠ .done := fun hd => hdone (hd ▸ hbrk)
      refine ⟨⟨[], by simp [hAtt], by simp⟩, fun le => ?_⟩
      rw [runModes]
      simp only [hnd, if_false, if_neg hnd, if_pos hbrk]
    · push_neg at hstop
      have hAtt : attemptList brk send (c :: cs) = c :: attemptList brk send cs := by
        rw [attemptList, if_neg (by push_neg; exact hstop)]
      rw [hAtt] at hmem
      rcases List.mem_cons.1 hmem with rfl | hm
      · exact absurd hbrk hstop.2
      · obtain ⟨⟨pre, hpre, hclean⟩, hrun⟩ := ih m hm hbrk
        refine ⟨⟨c :: pre, by rw [hAtt, hpre, List.cons_append], ?_⟩, fun le => ?_⟩
        · intro m' hm'
          rcases List.mem_cons.1 hm' with rfl | h
          · exact ⟨hstop.2, hstop.1⟩
          · exact hclean m' h
        · rw [runModes]
          simp only [if_neg hstop.1, if_neg hstop.2]
          exact hrun _

theorem workerConsumed_failrun :
    ∀ (k ec : Nat) (sig : Option (ℚ × ℚ)) (post : List PollResult),
      1 ≤ k → 5 ≤ ec + k →
      workerConsumed sig ec (List.replicate k .failure ++ post) ≤ k := by
  intro k
  induction k with
  | zero =>
    intro ec sig post h
    omega
  | succ n ih =>
    intro ec sig post _ h5
    rw [List.replicate_succ, List.cons_append, workerConsumed]
    by_cases hec : 5 ≤ ec + 1
    · rw [if_pos hec]
      omega
    · rw [if_neg hec]
      have hrec := ih (ec + 1) sig post (by omega) (by omega)
      omega

theorem workerConsumed_bound :
    ∀ (pre : List PollResult) (sig : Option (ℚ × ℚ)) (ec : Nat) (post : List PollResult),
      workerConsumed sig ec (pre ++ (List.replicate 5 .failure ++ post)) ≤ pre.length + 5 := by
  intro pre
  induction pre with
  | nil =>
    intro sig ec post
    simpa using workerConsumed_failrun 5 ec sig post (by omega) (by omega)
  | cons p ps ih =>
    intro sig ec post
    rw [List.cons_append]
    cases p with
    | success b a =>
      rw [workerConsumed]
      by_cases hsig : some (b, a) ≠ sig
      · rw [if_pos hsig]
        have := ih (some (b, a)) 0 post
        simp only [List.length_cons]
        omega
      · rw [if_neg hsig]
        have := ih sig ec post
        simp only [List.length_cons]
        omega
    | failure =>
      rw [workerConsumed]
      by_cases hec : 5 ≤ ec + 1
      · rw [if_pos hec]
        simp only [List.length_cons]
        omega
      · rw [if_neg hec]
        have := ih sig (ec + 1) post
        simp only [List.length_cons]
        omega
    | exn =>
      rw [workerConsumed]
      by_cases hec : 5 ≤ ec + 1
      · rw [if_pos hec]
        simp only [List.length_cons]
        omega
      · rw [if_neg hec]
        have := ih sig (ec + 1) post
        simp only [List.length_cons]
        omega

theorem emitCount_sigChanges : ∀ (l : List (ℚ × ℚ)) (a : ℚ × ℚ),
    emitCount (some a) l = sigChanges a l := by
  intro l
  induction l with
  | nil =>
    intro a
    rfl
  | cons b l ih =>
    intro a
    by_cases hb : b = a
    · subst hb
      rw [emitCount, sigChanges]
      simp [ih]
    · rw [emitCount, sigChanges]
      have : some b ≠ some a := by simpa using hb
      simp [this, hb, ih]

/-! ## Claim theorems -/

/-- C5 (amended): for every requested volume and every instrument whose
volume bounds are themselves integer multiples of a (positive) volume
step with `volume_min ≤ volume_max`, the volume submitted by
`place_trade` and `close_trade` — `normalizeVolume`, applied at line 322
and line 482 — lies in `[volume_min, volume_max]` and is an integer
multiple of `volume_step` away from `volume_min`.  (Without the
alignment assumption on the bounds the multiple-of-step part of the
original claim fails; see the counterexample.) -/
theorem normalize_volume_range_and_step (vmin vmax vstep v : ℚ) (a b : ℤ)
    (_hstep : 0 < vstep) (hmin : vmin = a * vstep) (hmax : vmax = b * vstep)
    (hle : vmin ≤ vmax) :
    (vmin ≤ normalizeVolume vmin vmax vstep v ∧ normalizeVolume vmin vmax vstep v ≤ vmax) ∧
    ∃ n : ℤ, normalizeVolume vmin vmax vstep v = vmin + n * vstep := by
  have hunf : normalizeVolume vmin vmax vstep v
      = max vmin (min vmax ((pyRound (v / vstep) : ℚ) * vstep)) := rfl
  set k := pyRound (v / vstep) with hk
  constructor
  · constructor
    · rw [hunf]
      exact le_max_left _ _
    · rw [hunf]
      exact max_le hle (min_le_left _ _)
  · rw [hunf]
    rcases le_total ((k : ℚ) * vstep) vmax with h1 | h1
    · rw [min_eq_right h1]
      rcases le_total vmin ((k : ℚ) * vstep) with h2 | h2
      · rw [max_eq_right h2]
        refine ⟨k - a, ?_⟩
        rw [hmin]
        push_cast
        ring
      · rw [max_eq_left h2]
        exact ⟨0, by ring⟩
    · rw [min_eq_left h1, max_eq_right hle]
      refine ⟨b - a, ?_⟩
      rw [hmin, hmax]
      push_cast
      ring

/-- Witness for C5 at a concrete instrument (min 1, max 10, step 1,
requested volume 7). -/
theorem normalize_volume_range_and_step_witness :
    (0 : ℚ) < 1 ∧
    (((1 : ℚ) ≤ normalizeVolume 1 10 1 7 ∧ normalizeVolume 1 10 1 7 ≤ 10) ∧
      ∃ n : ℤ, normalizeVolume 1 10 1 7 = 1 + n * 1) :=
  ⟨one_pos,
    normalize_volume_range_and_step 1 10 1 7 1 10 one_pos (by simp) (by simp) (by simp)⟩

/-- Counterexample for C5 as stated: with `volume_min = 1/2`,
`volume_max = 4`, `volume_step = 3/4` and requested volume 1, the
normalized volume is 3/4, which is not `volume_min` plus an integer
multiple of the step (it would need `n = 1/3`). -/
theorem normalize_volume_step_misaligned :
    normalizeVolume (1 / 2) 4 (3 / 4) 1 = 3 / 4 ∧
    ∀ n : ℤ, normalizeVolume (1 / 2) 4 (3 / 4) 1 ≠ 1 / 2 + n * (3 / 4) := by
  have heval : normalizeVolume (1 / 2) 4 (3 / 4) 1 = 3 / 4 := by
    norm_num [normalizeVolume, pyRound, min_def, max_def]
  refine ⟨heval, fun n hn => ?_⟩
  rw [heval] at hn
  have h4 : ((3 * n : ℤ) : ℚ) = 1 := by
    push_cast
    linarith
  have h5 : (3 * n : ℤ) = 1 := by exact_mod_cast h4
  omega

/-- C4 (amended): in `close_trade`, a close request without a volume
defaults to the position's full volume, and the volume submitted to the
terminal is the requested volume step-normalized and clamped to the
instrument's `[volume_min, volume_max]` only — it is never clamped to the
position's remaining volume (see the counterexample, where the submitted
volume exceeds the position's volume). -/
theorem close_volume_default_and_clamp (i : SymbolInfo) (pv : ℚ) (v? : Option ℚ)
    (hle : i.volume_min ≤ i.volume_max) :
    closeRequestVolume i pv none
        = normalizeVolume i.volume_min i.volume_max i.volume_step pv ∧
    i.volume_min ≤ closeRequestVolume i pv v? ∧
    closeRequestVolume i pv v? ≤ i.volume_max := by
  refine ⟨rfl, ?_, ?_⟩
  · show i.volume_min ≤ max i.volume_min (min i.volume_max _)
    exact le_max_left _ _
  · show max i.volume_min (min i.volume_max _) ≤ i.volume_max
    exact max_le hle (min_le_left _ _)

/-- An ordinary tradable instrument used by concrete witnesses. -/
def sampleInfo : SymbolInfo :=
  { trade_mode := 1, digits := 2, volume_min := 1, volume_max := 10,
    volume_step := 1, fill_fok := false, fill_ioc := true, fill_return := false }

/-- Witness for C4 at `sampleInfo`, position volume 3, requested close
volume 7. -/
theorem close_volume_default_and_clamp_witness :
    sampleInfo.volume_min ≤ sampleInfo.volume_max ∧
    (closeRequestVolume sampleInfo 3 none
        = normalizeVolume sampleInfo.volume_min sampleInfo.volume_max sampleInfo.volume_step 3 ∧
      sampleInfo.volume_min ≤ closeRequestVolume sampleInfo 3 (some 7) ∧
      closeRequestVolume sampleInfo 3 (some 7) ≤ sampleInfo.volume_max) :=
  ⟨by simp [sampleInfo],
    close_volume_default_and_clamp sampleInfo 3 (some 7) (by simp [sampleInfo])⟩

/-- Counterexample for C4 as stated: closing a position of volume 1 with
requested volume 5 on an instrument with `volume_min = 1/100`,
`volume_max = 10`, `volume_step = 1/100` submits volume 5, which exceeds
the position's volume — no clamp against the position volume exists in
`close_trade`. -/
theorem close_volume_exceeds_position :
    closeRequestVolume
        { trade_mode := 1, digits := 2, volume_min := 1 / 100, volume_max := 10,
          volume_step := 1 / 100, fill_fok := false, fill_ioc := true, fill_return := false }
        1 (some 5) = 5 ∧
    ¬((5 : ℚ) ≤ 1) := by
  constructor
  · norm_num [closeRequestVolume, closeVolumeDefault, normalizeVolume, pyRound,
      min_def, max_def]
  · norm_num

/-- C10 (confirmed): `close_trade` treats a requested volume of 0 exactly
as an omitted volume — Python truthiness (`volume or pos.volume`)
substitutes the position's full volume in both cases, so the whole call
is indistinguishable between the two. -/
theorem close_trade_zero_volume_as_omitted (o : CloseOracle) (connected : Bool)
    (sym? : Option String) :
    closeTrade o connected (some 0) sym? = closeTrade o connected none sym? := by
  have h : closeVolumeDefault (some 0) = closeVolumeDefault none := by
    funext pv
    simp [closeVolumeDefault]
  unfold closeTrade
  rw [h]

/-- C7 (confirmed): over any run of successful polls the worker publishes
exactly one quote per distinct consecutive (bid, ask) signature — the
first poll always publishes (the initial signature is `None`), a poll
whose signature equals the last emitted one publishes nothing, and a poll
with a fresh signature publishes exactly one quote and updates the
signature. -/
theorem price_stream_dedup_count :
    (∀ qs : List (ℚ × ℚ), emitCount none qs = distinctConsecCount qs) ∧
    (∀ (q : ℚ × ℚ) (rest : List (ℚ × ℚ)),
      emitCount (some q) (q :: rest) = emitCount (some q) rest) ∧
    (∀ (sig : Option (ℚ × ℚ)) (q : ℚ × ℚ) (rest : List (ℚ × ℚ)), sig ≠ some q →
      emitCount sig (q :: rest) = 1 + emitCount (some q) rest) := by
  refine ⟨?_, ?_, ?_⟩
  · intro qs
    cases qs with
    | nil => rfl
    | cons a l =>
      rw [distinctConsecCount, emitCount]
      simp [emitCount_sigChanges]
  · intro q rest
    rw [emitCount, if_neg (by simp)]
  · intro sig q rest h
    rw [emitCount, if_pos (Ne.symm h)]

/-- Witness for C7's fresh-signature case at signature `None` and quote
`(1, 2)`. -/
theorem price_stream_dedup_count_witness :
    (none : Option (ℚ × ℚ)) ≠ some (1, 2) ∧
    emitCount none [(1, 2)] = 1 + emitCount (some (1, 2)) [] :=
  ⟨by simp, price_stream_dedup_count.2.2 none (1, 2) [] (by simp)⟩

/-- C9 (amended): a registered session survives the idle sweep iff it is
connected and either was active within the 1800-second threshold or has
at least one active subscription.  In particular every connected,
subscription-free session idle for more than 1800 seconds is removed, and
a *connected* session with a subscription is never removed; but a
*disconnected* session is removed even if it has subscriptions (see the
counterexample), contrary to the claim's unconditional second half. -/
theorem cleanup_eviction_characterization (now : ℚ) (reg : List (String × RegConnector))
    (a : String) (c : RegConnector) (hmem : (a, c) ∈ reg) :
    (a, c) ∈ cleanupInactiveConnectors now reg ↔
      (c.connected = true ∧ (now - c.lastActivity ≤ 1800 ∨ c.subscribedSymbols ≠ [])) := by
  rw [cleanupInactiveConnectors, List.mem_filter]
  simp only [hmem, true_and, Bool.not_eq_true']
  rw [shouldEvict]
  simp [List.isEmpty_iff, not_lt, or_comm, and_comm]
  intro _
  constructor
  · intro f
    by_cases hlt : 1800 < now - c.lastActivity
    · exact Or.inl (f hlt)
    · exact Or.inr (by linarith [not_lt.mp hlt])
  · rintro (h | h)
    · exact fun _ => h
    · intro hlt
      exact absurd hlt (by linarith)

/-- A connected, subscribed registry entry used by C9's witness. -/
def connectedSubscribed : RegConnector :=
  { connected := true, lastActivity := 0, subscribedSymbols := ["XAUUSD"] }

/-- Witness for C9 at a registry holding one connected, subscribed
session. -/
theorem cleanup_eviction_characterization_witness :
    ("acct", connectedSubscribed) ∈ [("acct", connectedSubscribed)] ∧
    (("acct", connectedSubscribed) ∈ cleanupInactiveConnectors 0 [("acct", connectedSubscribed)] ↔
      (connectedSubscribed.connected = true ∧
        ((0 : ℚ) - connectedSubscribed.lastActivity ≤ 1800 ∨
          connectedSubscribed.subscribedSymbols ≠ []))) :=
  ⟨by simp, cleanup_eviction_characterization 0 _ "acct" connectedSubscribed (by simp)⟩

/-- A disconnected registry entry that still has a subscription. -/
def disconnectedSubscribed : RegConnector :=
  { connected := false, lastActivity := 0, subscribedSymbols := ["XAUUSD"] }

/-- Counterexample for C9 as stated: a session with an active
subscription *is* evicted by the sweep when its `connected` flag is
false, because the eviction test's first disjunct ignores subscriptions
and activity. -/
theorem cleanup_evicts_disconnected_with_subs :
    disconnectedSubscribed.subscribedSymbols ≠ [] ∧
    cleanupInactiveConnectors 0 [("acct", disconnectedSubscribed)] = [] := by
  constructor
  · simp [disconnectedSubscribed]
  · simp [cleanupInactiveConnectors, shouldEvict, disconnectedSubscribed]

/-- C1 (amended): an initialization failure, a login failure, or an
exception raised before login succeeds leaves the session flags untouched
(so a previously-disconnected session stays disconnected) and returns a
classified error.  Once initialization and login both succeed the source
sets `connected = True` and clears the shutdown flag *before* the
automated-trading check, so `connected` is true afterwards whether or not
the call succeeds: the AutoTrading-disabled failure (code 1001) returns a
classified error with `connected = true` (see the counterexample).  A
successful connect returns the account metadata (login id,
trading-allowed flag, balance). -/
theorem connect_flag_and_result (o : ConnectOracle) (s : SessionFlags)
    (hconn : s.connected = false) :
    ((connectSession o s).1.connected = true ↔
      (o.initOk = .ret true ∧ o.loginOk = .ret true)) ∧
    (o.initOk = .ret true → o.loginOk = .ret true →
      (connectSession o s).1.shutdownFlag = false) ∧
    (∀ ai : AccountInfo, o.initOk = .ret true → o.loginOk = .ret true →
      o.accountInfo = .ret (some ai) → ai.trade_expert = true →
      (connectSession o s).2 = .ok (some ai.login) ai.trade_allowed ai.balance) ∧
    (∀ ai : AccountInfo, o.initOk = .ret true → o.loginOk = .ret true →
      o.accountInfo = .ret (some ai) → ai.trade_expert = false →
      ((connectSession o s).2 = .err 1001 ∧ (connectSession o s).1.connected = true)) ∧
    ((o.initOk ≠ .ret true ∨ o.loginOk ≠ .ret true) →
      ((connectSession o s).1 = s ∧ ∃ code, (connectSession o s).2 = .err code)) := by
  obtain ⟨i, l, ec, ai⟩ := o
  cases i with
  | raise => simp [connectSession, hconn]
  | ret bi =>
    cases bi with
    | false => simp [connectSession, hconn]
    | true =>
      cases l with
      | raise => simp [connectSession, hconn]
      | ret bl =>
        cases bl with
        | false => simp [connectSession, hconn]
        | true =>
          cases ai with
          | raise => simp [connectSession]
          | ret oai =>
            cases oai with
            | none => simp [connectSession]
            | some a =>
              cases hte : a.trade_expert with
              | false => simp [connectSession, hte]
              | true => simp [connectSession, hte]

/-- The connect-time terminal behavior of C1's counterexample and
witness: initialization and login succeed, but the account reports
automated trading disabled. -/
def autoTradingDisabledOracle : ConnectOracle :=
  { initOk := .ret true, loginOk := .ret true, lastErrorCode := 0,
    accountInfo := .ret (some { login := 7, trade_allowed := true,
                                trade_expert := false, balance := 0 }) }

/-- Counterexample for C1 as stated: the AutoTrading-disabled path
returns a failure (code 1001) yet leaves `connected = true` on a session
that started disconnected. -/
theorem connect_autotrading_disabled_leaves_connected :
    (connectSession autoTradingDisabledOracle ⟨false, true⟩).2 = .err 1001 ∧
    (connectSession autoTradingDisabledOracle ⟨false, true⟩).1.connected = true :=
  ⟨rfl, rfl⟩

/-- Witness for C1 at a concrete disconnected session and oracle. -/
theorem connect_flag_and_result_witness :
    (⟨false, true⟩ : SessionFlags).connected = false ∧
    ((connectSession autoTradingDisabledOracle ⟨false, true⟩).1.connected = true ↔
      (autoTradingDisabledOracle.initOk = .ret true ∧
        autoTradingDisabledOracle.loginOk = .ret true)) :=
  ⟨rfl, (connect_flag_and_result autoTradingDisabledOracle ⟨false, true⟩ rfl).1⟩

/-- C6 (confirmed): a poll worker observing 5 consecutive `get_price`
failures (in any context, starting from a fresh worker state) stops
within 5 polls of the first of those failures — it never polls past the
5th consecutive failure — and the cleanup it then runs removes its own
entry from both the worker map and the subscription map, emptying the
subscriber set for its symbol. -/
theorem price_worker_circuit_breaker :
    (∀ pre post : List PollResult,
      workerConsumed none 0 (pre ++ (List.replicate 5 .failure ++ post))
        ≤ pre.length + 5) ∧
    (∀ (s : StreamState) (sym : String),
      (workerExit s sym).threads sym = false ∧ (workerExit s sym).subs sym = []) := by
  refine ⟨fun pre post => workerConsumed_bound pre none 0 post, fun s sym => ⟨?_, ?_⟩⟩
  · show (if sym = sym then false else s.threads sym) = false
    rw [if_pos rfl]
  · show (if sym = sym then [] else s.subs sym) = []
    rw [if_pos rfl]

/-- C8 (confirmed): the worker-iff-subscriber invariant holds in the
initial state and is preserved by `start_price_stream`,
`stop_price_stream` (with or without a client id), the worker's
self-cleanup, and `disconnect`. -/
theorem worker_iff_subscriber_invariant :
    WorkerIffSubscribed streamInit ∧
    (∀ (s : StreamState) (sym client : String), WorkerIffSubscribed s →
      WorkerIffSubscribed (startPriceStream s sym client)) ∧
    (∀ (s : StreamState) (sym : String) (client? : Option String), WorkerIffSubscribed s →
      WorkerIffSubscribed (stopPriceStream s sym client?)) ∧
    (∀ (s : StreamState) (sym : String), WorkerIffSubscribed s →
      WorkerIffSubscribed (workerExit s sym)) ∧
    (∀ s : StreamState, WorkerIffSubscribed (disconnectStreams s)) := by
  refine ⟨?_, ?_, ?_, ?_, ?_⟩
  · intro sym
    simp [streamInit]
  · intro s sym c h x
    unfold startPriceStream
    by_cases ht : s.threads sym = true
    · rw [if_pos ht]
      by_cases hc : c ∈ s.subs sym
      · rw [if_pos hc]
        exact h x
      · rw [if_neg hc]
        show s.threads x = true ↔ (if x = sym then s.subs sym ++ [c] else s.subs x) ≠ []
        by_cases hx : x = sym
        · subst hx
          rw [if_pos rfl]
          exact ⟨fun _ => by simp, fun _ => ht⟩
        · rw [if_neg hx]
          exact h x
    · rw [if_neg ht]
      show (if x = sym then true else s.threads x) = true ↔
        (if x = sym then [c] else s.subs x) ≠ []
      by_cases hx : x = sym
      · rw [if_pos hx, if_pos hx]
        simp
      · rw [if_neg hx, if_neg hx]
        exact h x
  · intro s sym c? h x
    cases c? with
    | none =>
      rw [stopPriceStream]
      by_cases he : s.subs sym = []
      · rw [if_pos he]
        exact h x
      · rw [if_neg he]
        show (if x = sym then false else s.threads x) = true ↔
          (if x = sym then [] else s.subs x) ≠ []
        by_cases hx : x = sym
        · rw [if_pos hx, if_pos hx]
          simp
        · rw [if_neg hx, if_neg hx]
          exact h x
    | some c =>
      rw [stopPriceStream]
      by_cases he : s.subs sym = []
      · rw [if_pos he]
        exact h x
      · rw [if_neg he]
        by_cases hl : (s.subs sym).erase c = []
        · rw [if_pos hl]
          show (if x = sym then false else s.threads x) = true ↔
            (if x = sym then [] else s.subs x) ≠ []
          by_cases hx : x = sym
          · rw [if_pos hx, if_pos hx]
            simp
          · rw [if_neg hx, if_neg hx]
            exact h x
        · rw [if_neg hl]
          show s.threads x = true ↔
            (if x = sym then (s.subs sym).erase c else s.subs x) ≠ []
          by_cases hx : x = sym
          · subst hx
            rw [if_pos rfl]
            exact ⟨fun _ => hl, fun _ => (h x).2 he⟩
          · rw [if_neg hx]
            exact h x
  · intro s sym h x
    show (if x = sym then false else s.threads x) = true ↔
      (if x = sym then [] else s.subs x) ≠ []
    by_cases hx : x = sym
    · rw [if_pos hx, if_pos hx]
      simp
    · rw [if_neg hx, if_neg hx]
      exact h x
  · intro s x
    show false = true ↔ ([] : List String) ≠ []
    simp

/-- Witness for C8: the invariant holds of the empty initial state, and
is carried across a concrete `start_price_stream` call. -/
theorem worker_iff_subscriber_invariant_witness :
    WorkerIffSubscribed streamInit ∧
    WorkerIffSubscribed (startPriceStream streamInit "XAUUSD" "client1") :=
  ⟨by simp [WorkerIffSubscribed, streamInit],
    worker_iff_subscriber_invariant.2.1 streamInit "XAUUSD" "client1"
      (by simp [WorkerIffSubscribed, streamInit])⟩

/-- C2 (amended): the candidate list `place_trade` iterates over contains
no duplicate mode, always contains the universal fallback IOC, contains
every bitmask-supported mode, starts with the caller's requested mode
whenever that mode is valid (bitmask-supported or IOC), and contains
nothing else.  The order, however, is requested-mode first, then the
hard-coded IOC default, then the bitmask-supported modes in the table
order IOC, FOK, RETURN — the fallback IOC precedes the supported modes
rather than following them, so the claimed order
[requested, supported..., fallback] is wrong (see the counterexample). -/
theorem place_candidate_modes_characterization (i : SymbolInfo) (fm : String) :
    (placeCandidateModes i fm).Nodup ∧
    FillMode.IOC ∈ placeCandidateModes i fm ∧
    (∀ m, supp i m = true → m ∈ placeCandidateModes i fm) ∧
    (∀ m, placeRequestedMode i fm = some m →
      (placeCandidateModes i fm).head? = some m) ∧
    (∀ m, m ∈ placeCandidateModes i fm →
      supp i m = true ∨ m = .IOC ∨ placeRequestedMode i fm = some m) := by
  have hsupp : ∀ m : FillMode, m ∈ placeSupportedModes i ↔ (m = .IOC ∨ supp i m = true) := by
    intro m
    simp only [placeSupportedModes, List.mem_cons, List.mem_filter]
    constructor
    · rintro (rfl | ⟨_, hm⟩)
      · exact Or.inl rfl
      · exact Or.inr hm
    · rintro (rfl | hm)
      · exact Or.inl rfl
      · refine Or.inr ⟨?_, hm⟩
        cases m <;> simp [placeFillingModes]
  have hmem : ∀ m : FillMode, m ∈ placeCandidateModes i fm ↔
      m ∈ (match placeRequestedMode i fm with
           | some r => r :: placeSupportedModes i
           | none => placeSupportedModes i) := by
    intro m
    rw [placeCandidateModes, mem_dedupByName]
    simp
  refine ⟨nodup_dedupByName _ _, ?_, ?_, ?_, ?_⟩
  · rw [hmem]
    cases hreq : placeRequestedMode i fm with
    | none =>
      exact (hsupp _).2 (Or.inl rfl)
    | some r =>
      exact List.mem_cons_of_mem _ ((hsupp _).2 (Or.inl rfl))
  · intro m hm
    rw [hmem]
    cases hreq : placeRequestedMode i fm with
    | none =>
      exact (hsupp _).2 (Or.inr hm)
    | some r =>
      exact List.mem_cons_of_mem _ ((hsupp _).2 (Or.inr hm))
  · intro m hreq
    rw [placeCandidateModes, hreq]
    rw [dedupByName, if_neg (List.not_mem_nil _)]
    rfl
  · intro m hm
    rw [hmem] at hm
    cases hreq : placeRequestedMode i fm with
    | none =>
      rw [hreq] at hm
      rcases (hsupp m).1 hm with rfl | hs
      · exact Or.inr (Or.inl rfl)
      · exact Or.inl hs
    | some r =>
      rw [hreq] at hm
      rcases List.mem_cons.1 hm with rfl | hm
      · exact Or.inr (Or.inr rfl)
      · rcases (hsupp m).1 hm with rfl | hs
        · exact Or.inr (Or.inl rfl)
        · exact Or.inl hs

/-- An instrument whose filling-mode bitmask supports only RETURN, used
by C2's counterexample and witness. -/
def returnOnlyInfo : SymbolInfo :=
  { trade_mode := 1, digits := 2, volume_min := 1, volume_max := 10,
    volume_step := 1, fill_fok := false, fill_ioc := false, fill_return := true }

/-- Counterexample for C2 as stated: for an instrument supporting only
RETURN and the (invalid, unsupported, non-fallback) preferred mode "FOK",
the claim requires attempt order [RETURN, IOC] (supported mode first,
fallback last), but `place_trade` builds [IOC, RETURN] — the hard-coded
IOC default precedes the supported mode. -/
theorem place_candidate_modes_order_cex :
    supp returnOnlyInfo .RETURN = true ∧
    supp returnOnlyInfo .FOK = false ∧
    supp returnOnlyInfo .IOC = false ∧
    placeCandidateModes returnOnlyInfo "FOK" = [.IOC, .RETURN] ∧
    placeCandidateModes returnOnlyInfo "FOK" ≠ [.RETURN, .IOC] := by
  refine ⟨rfl, rfl, rfl, rfl, ?_⟩
  intro h
  rw [show placeCandidateModes returnOnlyInfo "FOK" = [.IOC, .RETURN] from rfl] at h
  simp at h

/-- Witness for C2 at the RETURN-only instrument with preferred mode
"FOK". -/
theorem place_candidate_modes_characterization_witness :
    supp returnOnlyInfo .RETURN = true ∧
    .RETURN ∈ placeCandidateModes returnOnlyInfo "FOK" :=
  ⟨rfl,
    (place_candidate_modes_characterization returnOnlyInfo "FOK").2.2.1 .RETURN rfl⟩

/-- C3 (amended): in `place_trade`, an `order_send` failure whose retcode
is in the six-element terminal class (no funds, trading disabled, market
closed, invalid volume, connection lost, demo-only) aborts the retry loop
with no further mode attempted and the loop returns that last classified
error.  In `close_trade` the same holds but only for the three retcodes
of its own break list (trading disabled, market closed, invalid volume);
a no-funds, connection-lost or demo-only failure there does *not* stop
the loop (see the counterexample). -/
theorem trade_retry_break_behavior :
    (∀ (send : FillMode → OrderResult) (cands : List FillMode) (m : FillMode),
      m ∈ attemptList placeBreakList send cands →
      (send m).retcode ∈ placeBreakList →
      (∃ pre, attemptList placeBreakList send cands = pre ++ [m] ∧
        ∀ m' ∈ pre, (send m').retcode ∉ placeBreakList ∧ (send m').retcode ≠ .done) ∧
      ∀ le, runModes placeBreakList send cands le
        = .failure (some ((send m).retcode, m))) ∧
    (∀ (send : FillMode → OrderResult) (cands : List FillMode) (m : FillMode),
      m ∈ attemptList closeBreakList send cands →
      (send m).retcode ∈ closeBreakList →
      (∃ pre, attemptList closeBreakList send cands = pre ++ [m] ∧
        ∀ m' ∈ pre, (send m').retcode ∉ closeBreakList ∧ (send m').retcode ≠ .done) ∧
      ∀ le, runModes closeBreakList send cands le
        = .failure (some ((send m).retcode, m))) :=
  ⟨fun send cands m h1 h2 => runModes_break placeBreakList send (by decide) cands m h1 h2,
    fun send cands m h1 h2 => runModes_break closeBreakList send (by decide) cands m h1 h2⟩

/-- An `order_send` behavior that reports "trading disabled" for every
mode, used by C3's witness. -/
def sendDisabled : FillMode → OrderResult :=
  fun _ => { retcode := .tradeDisabled, order := 0, deal := 0, volume := 0, price := 0 }

/-- Witness for C3 in `place_trade` trying [IOC, FOK] against a
trading-disabled terminal: only IOC is attempted and its error is
returned. -/
theorem trade_retry_break_behavior_witness :
    .IOC ∈ attemptList placeBreakList sendDisabled [.IOC, .FOK] ∧
    (sendDisabled .IOC).retcode ∈ placeBreakList ∧
    ∀ le, runModes placeBreakList sendDisabled [.IOC, .FOK] le
      = .failure (some ((sendDisabled .IOC).retcode, .IOC)) :=
  ⟨by decide, by decide,
    (trade_retry_break_behavior.1 sendDisabled [.IOC, .FOK] .IOC
      (by decide) (by decide)).2⟩

/-- An instrument supporting FOK and IOC, used by C3's counterexample. -/
def fokIocInfo : SymbolInfo :=
  { trade_mode := 1, digits := 2, volume_min := 1, volume_max := 10,
    volume_step := 1, fill_fok := true, fill_ioc := true, fill_return := false }

/-- The close-trade run of C3's counterexample: a position exists, the
instrument supports FOK and IOC, and `order_send` reports "no money" for
FOK and "rejected" for everything else. -/
def closeNoMoneyOracle : CloseOracle :=
  { position? := some { symbol := "XAUUSD", ptype := .buy, volume := 1, magic := 0,
                        profit := 0 },
    info? := some fokIocInfo,
    tick? := some { bid := 1, ask := 2 },
    send := fun _ m =>
      match m with
      | .FOK => { retcode := .noMoney, order := 0, deal := 0, volume := 0, price := 0 }
      | _ => { retcode := .reject, order := 0, deal := 0, volume := 0, price := 0 } }

/-- Counterexample for C3 as stated: "no funds" belongs to the claim's
terminal class, yet `close_trade`'s loop, after FOK fails with "no
funds", goes on to attempt IOC — its break list omits no-funds,
connection-lost and demo-only — and the call returns IOC's error, not
the terminal-class one. -/
theorem close_retry_no_money_continues :
    Retcode.noMoney ∈ placeBreakList ∧
    closeCandidateModes fokIocInfo = [.FOK, .IOC] ∧
    attemptList closeBreakList (closeNoMoneyOracle.send 1) [.FOK, .IOC] = [.FOK, .IOC] ∧
    closeTrade closeNoMoneyOracle true none none = .sendErr .reject .IOC :=
  ⟨by decide, by decide, by decide, rfl⟩
